import Mathlib

/-!
Verification of `PythonAPI/util/scene_layout.py` (CARLA scene-layout adapter).

The script has two query functions, `get_scene_layout` and
`get_dynamic_objects`, which reshape simulator objects into plain
dictionaries.  We embed the data model shallowly: simulator-computed
operations (geolocation projection, world-space transform application,
waypoint stepping) are opaque function parameters, dictionaries are
association lists in insertion order, and a Python exception
(IndexError / KeyError / ValueError) is a `none` result of an
`Option`-valued translation.  Float fields are modelled as rationals.
-/

namespace SceneLayout

/-- A world-space location (carla.Location). -/
structure Location where
  x : ℚ
  y : ℚ
  z : ℚ
deriving DecidableEq

instance : Add Location :=
  ⟨fun a b => ⟨a.x + b.x, a.y + b.y, a.z + b.z⟩⟩

/-- A rotation (carla.Rotation). -/
structure Rotation where
  roll : ℚ
  pitch : ℚ
  yaw : ℚ
deriving DecidableEq

/-- A geographic coordinate (carla.GeoLocation), the result of
`carla_map.transform_to_geolocation`. -/
structure GeoLocation where
  latitude : ℚ
  longitude : ℚ
  altitude : ℚ
deriving DecidableEq

/-- An actor transform (carla.Transform): location plus rotation. -/
structure Transform where
  loc : Location
  rot : Rotation
deriving DecidableEq

/-- A map waypoint, with the fields `get_scene_layout` reads. -/
structure Waypoint where
  id : Int
  road_id : Int
  lane_id : Int
  loc : Location
  rot : Rotation
  lane_width : ℚ
deriving DecidableEq

/-- One lane entry of `map_dict`: the ordered waypoint list together with
the left and right marking positions computed at build time. -/
structure Lane where
  waypoints : List Waypoint
  left_marking : List Location
  right_marking : List Location
deriving DecidableEq

/-- The `map_dict` built by the first phase of `get_scene_layout`:
road id to (lane id to lane), as association lists in insertion order. -/
abbrev MapDict := List (Int × List (Int × Lane))

/-- Dictionary lookup of a lane key inside one road's lane map
(`lane_key in map_dict[road_key]` / `map_dict[road_key][lane_key]`). -/
def lookupLane (lanes : List (Int × Lane)) (k : Int) : Option Lane :=
  (lanes.find? (fun p => p.1 = k)).map (fun p => p.2)

/-- The waypoint record stored in `waypoints_graph` for one waypoint. -/
structure WaypointRecord where
  road_id : Int
  lane_id : Int
  position : List ℚ
  orientation : List ℚ
  left_margin_position : List ℚ
  right_margin_position : List ℚ
  next_waypoints_ids : List Int
  left_lane_waypoint_id : Int
  right_lane_waypoint_id : Int
deriving DecidableEq

/-- The neighbor-lane waypoint id for a given lane key and position index:
`-1` when the key is absent from the road's lane map, the neighbor's
waypoint id at the same index when present and in range, and `none`
(an uncaught IndexError) when present but out of range. -/
def neighborId (roadLanes : List (Int × Lane)) (k : Int) (i : Nat) : Option Int :=
  match lookupLane roadLanes k with
  | none => some (-1)
  | some l => (l.waypoints.get? i).map (fun w => w.id)

/-- Coordinate order used for every "position" field:
latitude, longitude, altitude. -/
def posCoords (g : GeoLocation) : List ℚ :=
  [g.latitude, g.longitude, g.altitude]

/-- Coordinate order used for every polygon vertex:
longitude, latitude, altitude. -/
def polyCoords (g : GeoLocation) : List ℚ :=
  [g.longitude, g.latitude, g.altitude]

/-- Build the graph record for road `road_key`, lane `lane_key`, position
index `i` (the body of the innermost loop of `get_scene_layout`).
`geo` is the opaque `transform_to_geolocation`. -/
def buildRecord (geo : Location → GeoLocation) (roadLanes : List (Int × Lane))
    (road_key lane_key : Int) (lane : Lane) (i : Nat) :
    Option (Int × WaypointRecord) :=
  let next_ids := (lane.waypoints.drop (i + 1)).map (fun w => w.id)
  let left_lane_key := if lane_key - 1 ≠ 0 then lane_key - 1 else lane_key - 2
  let right_lane_key := if lane_key + 1 ≠ 0 then lane_key + 1 else lane_key + 2
  match neighborId roadLanes left_lane_key i,
      neighborId roadLanes right_lane_key i,
      lane.left_marking.get? i, lane.right_marking.get? i,
      lane.waypoints.get? i with
  | some leftId, some rightId, some lmLoc, some rmLoc, some w =>
    let lm := geo lmLoc
    let rm := geo rmLoc
    let wl := geo w.loc
    some (w.id,
      { road_id := road_key
        lane_id := lane_key
        position := posCoords wl
        orientation := [w.rot.roll, w.rot.pitch, w.rot.yaw]
        left_margin_position := [lm.latitude, lm.longitude, lm.altitude]
        right_margin_position := [rm.latitude, rm.longitude, rm.altitude]
        next_waypoints_ids := next_ids
        left_lane_waypoint_id := leftId
        right_lane_waypoint_id := rightId })
  | _, _, _, _, _ => none

/-- Records for one lane, iterating the position indices in `is`. -/
def recordsFor (geo : Location → GeoLocation) (roadLanes : List (Int × Lane))
    (road_key lane_key : Int) (lane : Lane) :
    List Nat → Option (List (Int × WaypointRecord))
  | [] => some []
  | i :: is =>
      match buildRecord geo roadLanes road_key lane_key lane i,
          recordsFor geo roadLanes road_key lane_key lane is with
      | some r, some rest => some (r :: rest)
      | _, _ => none

/-- Records for all lanes of one road (`for lane_key in map_dict[road_key]`). -/
def lanesRecords (geo : Location → GeoLocation) (roadLanes : List (Int × Lane))
    (road_key : Int) : List (Int × Lane) → Option (List (Int × WaypointRecord))
  | [] => some []
  | (lk, lane) :: rest =>
      match recordsFor geo roadLanes road_key lk lane
          (List.range lane.waypoints.length),
        lanesRecords geo roadLanes road_key rest with
      | some g1, some g2 => some (g1 ++ g2)
      | _, _ => none

/-- The `waypoints_graph` construction of `get_scene_layout`, as the list
of (waypoint id, record) assignments in execution order; `none` models an
uncaught IndexError. -/
def buildGraph (geo : Location → GeoLocation) :
    MapDict → Option (List (Int × WaypointRecord))
  | [] => some []
  | (rk, lanes) :: rest =>
      match lanesRecords geo lanes rk lanes, buildGraph geo rest with
      | some g1, some g2 => some (g1 ++ g2)
      | _, _ => none

/-- All waypoints stored anywhere in a `map_dict`, in iteration order. -/
def allWaypoints (md : MapDict) : List Waypoint :=
  md.flatMap (fun rl => rl.2.flatMap (fun p => p.2.waypoints))

/-- The identity geolocation projection used for concrete test inputs. -/
def geoId (l : Location) : GeoLocation :=
  ⟨l.x, l.y, l.z⟩

/-- A concrete waypoint for test inputs. -/
def mkWp (i road laneK : Int) : Waypoint :=
  { id := i, road_id := road, lane_id := laneK
    loc := ⟨0, 0, 0⟩, rot := ⟨0, 0, 0⟩, lane_width := 4 }

/-- Test lane of road 1, lane 1 with two waypoints. -/
def laneA : Lane :=
  { waypoints := [mkWp 10 1 1, mkWp 11 1 1]
    left_marking := [⟨0, 0, 0⟩, ⟨0, 1, 0⟩]
    right_marking := [⟨1, 0, 0⟩, ⟨1, 1, 0⟩] }

/-- Test lane of road 1, lane 2 with a single waypoint: shorter than
`laneA`, so consulting it at position index 1 is out of range. -/
def laneB : Lane :=
  { waypoints := [mkWp 20 1 2]
    left_marking := [⟨2, 0, 0⟩]
    right_marking := [⟨3, 0, 0⟩] }

/-- The lane map of road 1 in the mismatched-length test input. -/
def lanesC1 : List (Int × Lane) := [(1, laneA), (2, laneB)]

/-- A `map_dict` with two lanes of the same road of unequal lengths. -/
def mdC1 : MapDict := [(1, lanesC1)]

/-- The fixed walking step of `get_scene_layout` (`precision = 0.05`). -/
def precision : ℚ := 5 / 100

/-- The body of the `while nxt.road_id == waypoint.road_id` loop: append
`nxt` while its road id equals the start road, then step to
`nxt.next(precision)[0]`.  `next` is the opaque simulator stepping
operation; `none` models either an IndexError on an empty `next` result
or exhaustion of the fuel bound (the loop not having terminated yet). -/
def walkLoop (next : Waypoint → ℚ → List Waypoint) (road : Int) :
    Nat → Waypoint → Option (List Waypoint)
  | 0, _ => none
  | fuel + 1, nxt =>
      if nxt.road_id = road then
        match (next nxt precision).head? with
        | none => none
        | some nxt2 =>
            match walkLoop next road fuel nxt2 with
            | none => none
            | some rest => some (nxt :: rest)
      else some []

/-- The ordered waypoint list built for one topology start waypoint:
`waypoints = [waypoint]`, `nxt = waypoint.next(precision)[0]`, then the
while loop. -/
def buildLaneWaypoints (next : Waypoint → ℚ → List Waypoint) (w : Waypoint)
    (fuel : Nat) : Option (List Waypoint) :=
  match (next w precision).head? with
  | none => none
  | some nxt =>
      match walkLoop next w.road_id fuel nxt with
      | none => none
      | some rest => some (w :: rest)

/-- The sorted topology start list of `get_scene_layout`:
`topology = sorted([x[0] for x in carla_map.get_topology()], key=z)`. -/
def sortTopology (topo : List (Waypoint × Waypoint)) : List Waypoint :=
  (topo.map Prod.fst).mergeSort (fun a b => decide (a.loc.z ≤ b.loc.z))

/-- A bounding box or trigger volume (carla.BoundingBox): a center
location and an extent (half sizes along x, y, z). -/
structure Box where
  location : Location
  extent : Location
deriving DecidableEq

/-- A simulator actor, with the fields `get_dynamic_objects` reads. -/
structure Actor where
  id : Int
  type_id : String
  attributes : List (String × String)
  transform : Transform
  bounding_box : Box
  trigger_volume : Box
  state : Int
deriving DecidableEq

/-- Python substring membership `needle in hay` on strings. -/
def containsSub (needle hay : String) : Bool :=
  hay.data.tails.any (fun t => needle.data.isPrefixOf t)

/-- The five category lists built by `_split_actors`. -/
structure SplitActors where
  vehicles : List Actor
  traffic_lights : List Actor
  speed_limits : List Actor
  walkers : List Actor
  stops : List Actor
deriving DecidableEq

/-- `_split_actors`: route each actor through the if/elif chain on
type-name substrings; an actor matching no category is dropped. -/
def split_actors : List Actor → SplitActors
  | [] => ⟨[], [], [], [], []⟩
  | a :: rest =>
    let s := split_actors rest
    if containsSub "vehicle" a.type_id then
      { s with vehicles := a :: s.vehicles }
    else if containsSub "traffic_light" a.type_id then
      { s with traffic_lights := a :: s.traffic_lights }
    else if containsSub "speed_limit" a.type_id then
      { s with speed_limits := a :: s.speed_limits }
    else if containsSub "walker" a.type_id then
      { s with walkers := a :: s.walkers }
    else if containsSub "stop" a.type_id then
      { s with stops := a :: s.stops }
    else s

/-- The category an actor is routed to by the `_split_actors` chain
(0 vehicles, 1 traffic lights, 2 speed limits, 3 walkers, 4 stops),
or `none` when it matches no substring. -/
def category (a : Actor) : Option Nat :=
  if containsSub "vehicle" a.type_id then some 0
  else if containsSub "traffic_light" a.type_id then some 1
  else if containsSub "speed_limit" a.type_id then some 2
  else if containsSub "walker" a.type_id then some 3
  else if containsSub "stop" a.type_id then some 4
  else none

/-- Whether an actor's type name contains at least one of the five
category substrings. -/
def matchesAny (a : Actor) : Bool :=
  containsSub "vehicle" a.type_id || containsSub "traffic_light" a.type_id ||
  containsSub "speed_limit" a.type_id || containsSub "walker" a.type_id ||
  containsSub "stop" a.type_id

/-- In how many of the five output lists an actor appears. -/
def inCount (a : Actor) (s : SplitActors) : Nat :=
  (if a ∈ s.vehicles then 1 else 0) + (if a ∈ s.traffic_lights then 1 else 0) +
  (if a ∈ s.speed_limits then 1 else 0) + (if a ∈ s.walkers then 1 else 0) +
  (if a ∈ s.stops then 1 else 0)

/-- The four local bounding-box corners built from an extent
(`_get_bounding_box` and the first four corners of `_get_trigger_volume`). -/
def localCorners (bb : Location) : List Location :=
  [⟨-bb.x, -bb.y, 0⟩, ⟨bb.x, -bb.y, 0⟩, ⟨bb.x, bb.y, 0⟩, ⟨-bb.x, bb.y, 0⟩]

/-- `_get_bounding_box`: four local corners from the bounding-box extent,
transformed to world space by the actor transform (`applyT`), then
projected to geographic coordinates (`geo`).  The bounding box's own
center location is not used. -/
def get_bounding_box (applyT : Transform → Location → Location)
    (geo : Location → GeoLocation) (actor : Actor) : List GeoLocation :=
  ((localCorners actor.bounding_box.extent).map
    (fun c => applyT actor.transform c)).map geo

/-- `_get_trigger_volume`: five local corners (the first repeated last)
from the trigger-volume extent, each offset by the trigger volume's own
center location, then transformed by the actor transform and projected. -/
def get_trigger_volume (applyT : Transform → Location → Location)
    (geo : Location → GeoLocation) (actor : Actor) : List GeoLocation :=
  let bb := actor.trigger_volume.extent
  (((localCorners bb ++ [(⟨-bb.x, -bb.y, 0⟩ : Location)]).map
      (fun c => c + actor.trigger_volume.location)).map
    (fun c => applyT actor.transform c)).map geo

/-- A vehicle or walker record of `get_dynamic_objects`. -/
structure VehicleRecord where
  id : Int
  position : List ℚ
  orientation : List ℚ
  bounding_box : List (List ℚ)
deriving DecidableEq

/-- A traffic-light record of `get_dynamic_objects`. -/
structure TrafficLightRecord where
  id : Int
  state : Int
  position : List ℚ
  trigger_volume : List (List ℚ)
deriving DecidableEq

/-- A stop-sign record of `get_dynamic_objects`. -/
structure StopRecord where
  id : Int
  position : List ℚ
  trigger_volume : List (List ℚ)
deriving DecidableEq

/-- A speed-limit record of `get_dynamic_objects`. -/
structure SpeedLimitRecord where
  id : Int
  position : List ℚ
  speed : Int
deriving DecidableEq

/-- The hero-vehicle record of `get_dynamic_objects`. -/
structure HeroRecord where
  id : Int
  position : List ℚ
  road_id : Int
  lane_id : Int
deriving DecidableEq

/-- `get_vehicles`: an id-keyed entry per vehicle, in order. -/
def get_vehicles (applyT : Transform → Location → Location)
    (geo : Location → GeoLocation) (vehicles : List Actor) :
    List (Int × VehicleRecord) :=
  vehicles.map (fun v =>
    (v.id,
      { id := v.id
        position := posCoords (geo v.transform.loc)
        orientation := [v.transform.rot.roll, v.transform.rot.pitch,
          v.transform.rot.yaw]
        bounding_box := (get_bounding_box applyT geo v).map polyCoords }))

/-- `get_walkers`: same record shape as vehicles. -/
def get_walkers (applyT : Transform → Location → Location)
    (geo : Location → GeoLocation) (walkers : List Actor) :
    List (Int × VehicleRecord) :=
  walkers.map (fun w =>
    (w.id,
      { id := w.id
        position := posCoords (geo w.transform.loc)
        orientation := [w.transform.rot.roll, w.transform.rot.pitch,
          w.transform.rot.yaw]
        bounding_box := (get_bounding_box applyT geo w).map polyCoords }))

/-- `get_traffic_lights`. -/
def get_traffic_lights (applyT : Transform → Location → Location)
    (geo : Location → GeoLocation) (traffic_lights : List Actor) :
    List (Int × TrafficLightRecord) :=
  traffic_lights.map (fun tl =>
    (tl.id,
      { id := tl.id
        state := tl.state
        position := posCoords (geo tl.transform.loc)
        trigger_volume := (get_trigger_volume applyT geo tl).map polyCoords }))

/-- `get_stop_signals`. -/
def get_stop_signals (applyT : Transform → Location → Location)
    (geo : Location → GeoLocation) (stops : List Actor) :
    List (Int × StopRecord) :=
  stops.map (fun st =>
    (st.id,
      { id := st.id
        position := posCoords (geo st.transform.loc)
        trigger_volume := (get_trigger_volume applyT geo st).map polyCoords }))

/-- Attribute-map lookup, `actor.attributes[key]`; `none` is a KeyError. -/
def lookupAttr (attrs : List (String × String)) (key : String) :
    Option String :=
  (attrs.find? (fun p => p.1 = key)).map (fun p => p.2)

/-- The filter test of the hero comprehension:
`'vehicle' in vehicle.type_id and vehicle.attributes['role_name'] == 'hero'`.
The attribute lookup only happens when the substring test passed
(Python `and` short-circuits); a missing key is an uncaught KeyError. -/
def heroTest (a : Actor) : Option Bool :=
  if containsSub "vehicle" a.type_id then
    match lookupAttr a.attributes "role_name" with
    | none => none
    | some v => some (v = "hero")
  else some false

/-- The `hero_vehicles` list comprehension over the vehicles category. -/
def heroVehicles : List Actor → Option (List Actor)
  | [] => some []
  | a :: rest =>
      match heroTest a, heroVehicles rest with
      | some b, some r => some (if b then a :: r else r)
      | _, _ => none

/-- `None if len(hero_vehicles) == 0 else random.choice(hero_vehicles)`:
`random.choice` picks the element at a uniformly random index, modelled
by the index parameter `k` reduced into range. -/
def chooseHero (heroes : List Actor) (k : Nat) : Option Actor :=
  if heroes.length = 0 then none else heroes.get? (k % heroes.length)

/-- `get_hero_vehicle`: `None` propagates; otherwise the record with the
road and lane of the map waypoint nearest the hero's location (`getWp`
is the opaque `carla_map.get_waypoint`). -/
def get_hero_vehicle (geo : Location → GeoLocation)
    (getWp : Location → Waypoint) : Option Actor → Option HeroRecord
  | none => none
  | some hv =>
      let hw := getWp hv.transform.loc
      some
        { id := hv.id
          position := posCoords (geo hv.transform.loc)
          road_id := hw.road_id
          lane_id := hw.lane_id }

/-- Split a character list on a separator character, Python
`str.split(sep)` with a single-character separator. -/
def splitOnCharAux (sep : Char) : List Char → List Char → List (List Char)
  | [], acc => [acc.reverse]
  | c :: cs, acc =>
      if c = sep then acc.reverse :: splitOnCharAux sep cs []
      else splitOnCharAux sep cs (c :: acc)

/-- Python `s.split(sep)` for a single-character separator. -/
def splitOnChar (sep : Char) (s : String) : List String :=
  (splitOnCharAux sep s.data []).map (fun l => ⟨l⟩)

/-- Decimal digits accumulated into a number; `none` on a non-digit. -/
def digitsAux : List Char → Nat → Option Nat
  | [], acc => some acc
  | c :: cs, acc =>
      if '0' ≤ c ∧ c ≤ '9' then
        digitsAux cs (acc * 10 + (c.toNat - '0'.toNat))
      else none

/-- Python `int` on a decimal string literal with an optional sign;
`none` is a ValueError. -/
def toIntPy (s : String) : Option Int :=
  match s.data with
  | [] => none
  | '-' :: cs =>
      match cs with
      | [] => none
      | _ => (digitsAux cs 0).map (fun n => -(n : Int))
  | '+' :: cs =>
      match cs with
      | [] => none
      | _ => (digitsAux cs 0).map (fun n => (n : Int))
  | cs => (digitsAux cs 0).map (fun n => (n : Int))

/-- `int(speed_limit.type_id.split('.')[2])`: the third dot-separated
segment of the type name parsed as an integer; `none` is an uncaught
IndexError or ValueError. -/
def parseSpeed (tid : String) : Option Int :=
  match (splitOnChar '.' tid).get? 2 with
  | none => none
  | some seg => toIntPy seg

/-- `get_speed_limits`; fails when a type label does not parse. -/
def get_speed_limits (geo : Location → GeoLocation) :
    List Actor → Option (List (Int × SpeedLimitRecord))
  | [] => some []
  | a :: rest =>
      match parseSpeed a.type_id, get_speed_limits geo rest with
      | some sp, some r =>
          some ((a.id,
            { id := a.id
              position := posCoords (geo a.transform.loc)
              speed := sp }) :: r)
      | _, _ => none

/-- The result record of `get_dynamic_objects`. -/
structure DynamicObjects where
  vehicles : List (Int × VehicleRecord)
  hero_vehicle : Option HeroRecord
  walkers : List (Int × VehicleRecord)
  traffic_lights : List (Int × TrafficLightRecord)
  stop_signs : List (Int × StopRecord)
  speed_limits : List (Int × SpeedLimitRecord)
deriving DecidableEq

/-- `get_dynamic_objects`: split the actor list, filter hero vehicles
(which may raise), pick the hero by the random index `k`, and build the
six category dictionaries; `none` models an uncaught exception. -/
def get_dynamic_objects (applyT : Transform → Location → Location)
    (geo : Location → GeoLocation) (getWp : Location → Waypoint)
    (actors : List Actor) (k : Nat) : Option DynamicObjects :=
  let s := split_actors actors
  match heroVehicles s.vehicles with
  | none => none
  | some heroes =>
      let hero := chooseHero heroes k
      match get_speed_limits geo s.speed_limits with
      | none => none
      | some sl =>
          some
            { vehicles := get_vehicles applyT geo s.vehicles
              hero_vehicle := get_hero_vehicle geo getWp hero
              walkers := get_walkers applyT geo s.walkers
              traffic_lights := get_traffic_lights applyT geo s.traffic_lights
              stop_signs := get_stop_signals applyT geo s.stops
              speed_limits := sl }

/-- A concrete actor for witness inputs. -/
def mkActor (i : Int) (tid : String) (attrs : List (String × String)) : Actor :=
  { id := i, type_id := tid, attributes := attrs
    transform := { loc := ⟨1, 2, 3⟩, rot := ⟨0, 0, 0⟩ }
    bounding_box := { location := ⟨0, 0, 0⟩, extent := ⟨1, 2, 0⟩ }
    trigger_volume := { location := ⟨5, 6, 0⟩, extent := ⟨1, 1, 0⟩ }
    state := 0 }

/-- The identity world transform used for witness inputs. -/
def applyTId (_t : Transform) (l : Location) : Location := l

/-- A constant waypoint query used for witness inputs. -/
def getWp0 (_l : Location) : Waypoint := mkWp 0 7 1

/-- A concrete speed-limit actor for witness inputs. -/
def slActor : Actor := mkActor 3 "traffic.speed_limit.30" []

/-- The speed-limit dictionary produced for `slActor`. -/
def slOut : List (Int × SpeedLimitRecord) :=
  [(3, { id := 3, position := [1, 2, 3], speed := 30 })]

/-- A single-lane, single-waypoint lane for success-path inputs. -/
def laneS : Lane :=
  { waypoints := [mkWp 10 1 1]
    left_marking := [⟨0, 0, 0⟩]
    right_marking := [⟨0, 0, 0⟩] }

/-- A one-road, one-lane `map_dict` on which the graph build succeeds. -/
def mdS : MapDict := [(1, [(1, laneS)])]

/-- The record built for the single waypoint of `mdS`. -/
def recS : WaypointRecord :=
  { road_id := 1, lane_id := 1
    position := [0, 0, 0], orientation := [0, 0, 0]
    left_margin_position := [0, 0, 0], right_margin_position := [0, 0, 0]
    next_waypoints_ids := []
    left_lane_waypoint_id := -1, right_lane_waypoint_id := -1 }

/-- The graph produced from `mdS`. -/
def graphS : List (Int × WaypointRecord) := [(10, recS)]

/-- A concrete hero vehicle for witness inputs. -/
def vehHero : Actor := mkActor 1 "vehicle.audi.tt" [("role_name", "hero")]

/-- A concrete traffic light for witness inputs. -/
def tlA : Actor := mkActor 2 "traffic.traffic_light" []

/-- A concrete actor list on which `get_dynamic_objects` succeeds. -/
def actors0 : List Actor := [vehHero, tlA]

/-- The dynamic-objects record produced for `actors0` with index 0. -/
def dynOut : DynamicObjects :=
  { vehicles := get_vehicles applyTId geoId [vehHero]
    hero_vehicle := get_hero_vehicle geoId getWp0 (some vehHero)
    walkers := []
    traffic_lights := get_traffic_lights applyTId geoId [tlA]
    stop_signs := []
    speed_limits := [] }

/-- A vehicle actor with no `role_name` attribute. -/
def vehNoRole : Actor := mkActor 5 "vehicle.bmw.grandtourer" []

/-- An actor list whose only vehicle lacks the `role_name` attribute. -/
def actorsBad : List Actor := [vehNoRole]

/-- The constant stepping function used for walk witness inputs. -/
def stepG (_v : Waypoint) : Waypoint := mkWp 99 2 1

/-- The waypoint `next` query used for walk witness inputs. -/
def nextW (v : Waypoint) (_q : ℚ) : List Waypoint := [stepG v]

/-- A concrete topology edge list for walk witness inputs. -/
def topoW : List (Waypoint × Waypoint) := [(mkWp 10 1 1, mkWp 99 2 1)]

/-! ### Theorems -/

/-- C1: in `get_scene_layout`, lanes of unequal length make the
neighbor-lane lookup at the same position index go out of range: on a
road whose lane 2 is shorter than lane 1, the record build for lane 1 at
position index 1 consults lane 2 at index 1 and raises an IndexError
(modelled as `none`), which propagates to the whole graph construction.
The out-of-bounds branch is reachable. -/
theorem neighbor_index_out_of_range_reachable :
    lookupLane lanesC1 2 = some laneB ∧
    laneB.waypoints.length = 1 ∧
    buildRecord geoId lanesC1 1 1 laneA 1 = none ∧
    buildGraph geoId mdC1 = none := by
  refine ⟨rfl, rfl, rfl, rfl⟩

/-- C9: `_get_bounding_box` yields exactly 4 vertices and is not
explicitly closed (its first and last local corners differ whenever the
extent's y half-size is nonzero), while `_get_trigger_volume` yields
exactly 5 vertices whose first and last are the image of the same local
corner, and only the trigger-volume corners are offset by the trigger
volume's own center location before the actor transform is applied. -/
theorem bounding_box_open_trigger_closed
    (applyT : Transform → Location → Location) (geo : Location → GeoLocation)
    (actor : Actor) :
    (get_bounding_box applyT geo actor).length = 4 ∧
    (get_trigger_volume applyT geo actor).length = 5 ∧
    (get_trigger_volume applyT geo actor).head? =
      (get_trigger_volume applyT geo actor).getLast? ∧
    get_trigger_volume applyT geo actor =
      (localCorners actor.trigger_volume.extent ++
          [(⟨-actor.trigger_volume.extent.x, -actor.trigger_volume.extent.y, 0⟩ :
            Location)]).map
        (fun c => geo (applyT actor.transform
          (c + actor.trigger_volume.location))) ∧
    get_bounding_box applyT geo actor =
      (localCorners actor.bounding_box.extent).map
        (fun c => geo (applyT actor.transform c)) ∧
    (actor.bounding_box.extent.y ≠ 0 →
      (localCorners actor.bounding_box.extent).get? 0 ≠
        (localCorners actor.bounding_box.extent).get? 3) := by
  refine ⟨rfl, rfl, rfl, rfl, rfl, ?_⟩
  intro hy h
  simp only [localCorners, List.get?] at h
  have h' := Option.some.inj h
  injection h' with hx hyy hz
  exact hy (by linarith)

/-- Closed instance of `bounding_box_open_trigger_closed` at a concrete
actor, transform and projection. -/
theorem bounding_box_open_trigger_closed_witness :
    (get_bounding_box applyTId geoId (mkActor 1 "vehicle.car" [])).length = 4 ∧
    (get_trigger_volume applyTId geoId (mkActor 1 "vehicle.car" [])).length = 5 ∧
    (get_trigger_volume applyTId geoId (mkActor 1 "vehicle.car" [])).head? =
      (get_trigger_volume applyTId geoId (mkActor 1 "vehicle.car" [])).getLast? ∧
    get_trigger_volume applyTId geoId (mkActor 1 "vehicle.car" []) =
      (localCorners (mkActor 1 "vehicle.car" []).trigger_volume.extent ++
          [(⟨-(mkActor 1 "vehicle.car" []).trigger_volume.extent.x,
             -(mkActor 1 "vehicle.car" []).trigger_volume.extent.y, 0⟩ :
            Location)]).map
        (fun c => geoId (applyTId (mkActor 1 "vehicle.car" []).transform
          (c + (mkActor 1 "vehicle.car" []).trigger_volume.location))) ∧
    get_bounding_box applyTId geoId (mkActor 1 "vehicle.car" []) =
      (localCorners (mkActor 1 "vehicle.car" []).bounding_box.extent).map
        (fun c => geoId (applyTId (mkActor 1 "vehicle.car" []).transform c)) ∧
    ((mkActor 1 "vehicle.car" []).bounding_box.extent.y ≠ 0 →
      (localCorners (mkActor 1 "vehicle.car" []).bounding_box.extent).get? 0 ≠
        (localCorners (mkActor 1 "vehicle.car" []).bounding_box.extent).get? 3) :=
  bounding_box_open_trigger_closed applyTId geoId (mkActor 1 "vehicle.car" [])

/-- C6: every speed-limit actor yields an entry keyed by its identity
carrying the actor's identity, its projected geographic position, and
the integer parsed from the third dot-separated segment of the type
name. -/
theorem speed_limits_entries (geo : Location → GeoLocation)
    (sls : List Actor) (out : List (Int × SpeedLimitRecord)) (a : Actor)
    (hout : get_speed_limits geo sls = some out) (ha : a ∈ sls) :
    ∃ rec seg, (a.id, rec) ∈ out ∧ rec.id = a.id ∧
      rec.position = posCoords (geo a.transform.loc) ∧
      (splitOnChar '.' a.type_id).get? 2 = some seg ∧
      toIntPy seg = some rec.speed := by
  induction sls generalizing out with
  | nil => cases ha
  | cons b rest ih =>
    rw [get_speed_limits] at hout
    rcases hsp : parseSpeed b.type_id with _ | sp <;> rw [hsp] at hout
    · cases hout
    rcases hr : get_speed_limits geo rest with _ | r <;> rw [hr] at hout
    · cases hout
    rw [Option.some_inj] at hout
    subst hout
    rcases List.mem_cons.1 ha with rfl | hmem
    · rw [parseSpeed] at hsp
      rcases hseg : (splitOnChar '.' a.type_id).get? 2 with _ | seg <;>
        rw [hseg] at hsp
      · exact Option.noConfusion hsp
      exact ⟨_, seg, List.mem_cons_self _ _, rfl, rfl, rfl, hsp⟩
    · obtain ⟨rec, seg, hin, h1, h2, h3, h4⟩ := ih r hr hmem
      exact ⟨rec, seg, List.mem_cons_of_mem _ hin, h1, h2, h3, h4⟩

/-- Closed instance of `speed_limits_entries` on a concrete
"traffic.speed_limit.30" actor. -/
theorem speed_limits_entries_witness :
    get_speed_limits geoId [slActor] = some slOut ∧ slActor ∈ [slActor] ∧
    ∃ rec seg, (slActor.id, rec) ∈ slOut ∧ rec.id = slActor.id ∧
      rec.position = posCoords (geoId slActor.transform.loc) ∧
      (splitOnChar '.' slActor.type_id).get? 2 = some seg ∧
      toIntPy seg = some rec.speed :=
  ⟨by decide, by decide,
    speed_limits_entries geoId [slActor] slOut slActor (by decide) (by decide)⟩

/-- Elimination for a successful `buildRecord`: the record carries the
road and lane keys, the waypoint id at position `i`, the successor ids
from the tail of its own lane, and neighbor ids produced by
`neighborId` at the skip-zero left/right lane keys. -/
theorem buildRecord_some (geo : Location → GeoLocation)
    (rl : List (Int × Lane)) (rk lk : Int) (lane : Lane) (i : Nat)
    (wid : Int) (rec : WaypointRecord)
    (h : buildRecord geo rl rk lk lane i = some (wid, rec)) :
    rec.road_id = rk ∧ rec.lane_id = lk ∧
    (∃ w, lane.waypoints.get? i = some w ∧ wid = w.id) ∧
    rec.next_waypoints_ids =
      (lane.waypoints.drop (i + 1)).map (fun w => w.id) ∧
    neighborId rl (if lk - 1 ≠ 0 then lk - 1 else lk - 2) i =
      some rec.left_lane_waypoint_id ∧
    neighborId rl (if lk + 1 ≠ 0 then lk + 1 else lk + 2) i =
      some rec.right_lane_waypoint_id := by
  simp only [buildRecord] at h
  rcases hL : neighborId rl (if lk - 1 ≠ 0 then lk - 1 else lk - 2) i with
    _ | lid <;> rw [hL] at h
  · exact Option.noConfusion h
  rcases hR : neighborId rl (if lk + 1 ≠ 0 then lk + 1 else lk + 2) i with
    _ | rid <;> rw [hR] at h
  · exact Option.noConfusion h
  rcases hlm : lane.left_marking.get? i with _ | lmLoc <;> rw [hlm] at h
  · exact Option.noConfusion h
  rcases hrm : lane.right_marking.get? i with _ | rmLoc <;> rw [hrm] at h
  · exact Option.noConfusion h
  rcases hw : lane.waypoints.get? i with _ | w <;> rw [hw] at h
  · exact Option.noConfusion h
  have h' := Option.some.inj h
  injection h' with hwid hrec
  subst hrec
  exact ⟨rfl, rfl, ⟨w, rfl, hwid.symm⟩, rfl, rfl, rfl⟩

/-- Every record of a successful `recordsFor` run comes from a
successful `buildRecord` at one of the listed position indices. -/
theorem recordsFor_mem (geo : Location → GeoLocation)
    (rl : List (Int × Lane)) (rk lk : Int) (lane : Lane) (is : List Nat)
    (out : List (Int × WaypointRecord)) (p : Int × WaypointRecord)
    (hout : recordsFor geo rl rk lk lane is = some out) (hp : p ∈ out) :
    ∃ i, i ∈ is ∧ buildRecord geo rl rk lk lane i = some p := by
  induction is generalizing out with
  | nil =>
    rw [recordsFor, Option.some_inj] at hout
    subst hout
    cases hp
  | cons i is ih =>
    rw [recordsFor] at hout
    rcases hb : buildRecord geo rl rk lk lane i with _ | r <;> rw [hb] at hout
    · exact Option.noConfusion hout
    rcases hrest : recordsFor geo rl rk lk lane is with _ | rest <;>
      rw [hrest] at hout
    · exact Option.noConfusion hout
    rw [Option.some_inj] at hout
    subst hout
    rcases List.mem_cons.1 hp with rfl | hmem
    · exact ⟨i, List.mem_cons_self _ _, hb⟩
    · obtain ⟨i', hi', hb'⟩ := ih rest hrest hmem
      exact ⟨i', List.mem_cons_of_mem _ hi', hb'⟩

/-- Every record of a successful `lanesRecords` run comes from a lane of
the road at an in-range position index. -/
theorem lanesRecords_mem (geo : Location → GeoLocation)
    (rl : List (Int × Lane)) (rk : Int) (ls : List (Int × Lane))
    (out : List (Int × WaypointRecord)) (p : Int × WaypointRecord)
    (hout : lanesRecords geo rl rk ls = some out) (hp : p ∈ out) :
    ∃ lk lane, (lk, lane) ∈ ls ∧ ∃ i, i < lane.waypoints.length ∧
      buildRecord geo rl rk lk lane i = some p := by
  induction ls generalizing out with
  | nil =>
    rw [lanesRecords, Option.some_inj] at hout
    subst hout
    cases hp
  | cons hd rest ih =>
    obtain ⟨lk, lane⟩ := hd
    rw [lanesRecords] at hout
    rcases h1 : recordsFor geo rl rk lk lane
        (List.range lane.waypoints.length) with _ | g1 <;> rw [h1] at hout
    · exact Option.noConfusion hout
    rcases h2 : lanesRecords geo rl rk rest with _ | g2 <;> rw [h2] at hout
    · exact Option.noConfusion hout
    rw [Option.some_inj] at hout
    subst hout
    rcases List.mem_append.1 hp with hmem | hmem
    · obtain ⟨i, hi, hb⟩ := recordsFor_mem geo rl rk lk lane _ g1 p h1 hmem
      exact ⟨lk, lane, List.mem_cons_self _ _,
        i, List.mem_range.1 hi, hb⟩
    · obtain ⟨lk', lane', hmm, i, hi, hb⟩ := ih g2 h2 hmem
      exact ⟨lk', lane', List.mem_cons_of_mem _ hmm, i, hi, hb⟩

/-- Every record of a successful `buildGraph` run comes from a road of
the map and a lane of that road, built against that road's full lane
map, at an in-range position index. -/
theorem buildGraph_mem (geo : Location → GeoLocation) (md : MapDict)
    (g : List (Int × WaypointRecord)) (p : Int × WaypointRecord)
    (hout : buildGraph geo md = some g) (hp : p ∈ g) :
    ∃ rk lanes, (rk, lanes) ∈ md ∧ ∃ lk lane, (lk, lane) ∈ lanes ∧
      ∃ i, i < lane.waypoints.length ∧
        buildRecord geo lanes rk lk lane i = some p := by
  induction md generalizing g with
  | nil =>
    rw [buildGraph, Option.some_inj] at hout
    subst hout
    cases hp
  | cons hd rest ih =>
    obtain ⟨rk, lanes⟩ := hd
    rw [buildGraph] at hout
    rcases h1 : lanesRecords geo lanes rk lanes with _ | g1 <;>
      rw [h1] at hout
    · exact Option.noConfusion hout
    rcases h2 : buildGraph geo rest with _ | g2 <;> rw [h2] at hout
    · exact Option.noConfusion hout
    rw [Option.some_inj] at hout
    subst hout
    rcases List.mem_append.1 hp with hmem | hmem
    · obtain ⟨lk, lane, hmm, i, hi, hb⟩ :=
        lanesRecords_mem geo lanes rk lanes g1 p h1 hmem
      exact ⟨rk, lanes, List.mem_cons_self _ _, lk, lane, hmm, i, hi, hb⟩
    · obtain ⟨rk', lanes', hmm, rest'⟩ := ih g2 h2 hmem
      exact ⟨rk', lanes', List.mem_cons_of_mem _ hmm, rest'⟩

/-- C2: every record of the graph comes from a road and lane of the map;
its adjacent-lane waypoint ids are taken at the lane keys one below and
one above the record's lane key, skipping zero (two away when the offset
lands on zero); a missing neighbor key yields the sentinel `-1`, and a
present neighbor key yields the neighbor's waypoint id at the same
position index. -/
theorem adjacent_lane_id_rule (geo : Location → GeoLocation) (md : MapDict)
    (g : List (Int × WaypointRecord)) (wid : Int) (rec : WaypointRecord)
    (hg : buildGraph geo md = some g) (hmem : (wid, rec) ∈ g) :
    ∃ lanes lane i, (rec.road_id, lanes) ∈ md ∧ (rec.lane_id, lane) ∈ lanes ∧
      i < lane.waypoints.length ∧
      ((lookupLane lanes
          (if rec.lane_id - 1 ≠ 0 then rec.lane_id - 1 else rec.lane_id - 2) =
            none ∧
          rec.left_lane_waypoint_id = -1) ∨
        (∃ l w, lookupLane lanes
            (if rec.lane_id - 1 ≠ 0 then rec.lane_id - 1 else rec.lane_id - 2) =
              some l ∧
          l.waypoints.get? i = some w ∧ rec.left_lane_waypoint_id = w.id)) ∧
      ((lookupLane lanes
          (if rec.lane_id + 1 ≠ 0 then rec.lane_id + 1 else rec.lane_id + 2) =
            none ∧
          rec.right_lane_waypoint_id = -1) ∨
        (∃ l w, lookupLane lanes
            (if rec.lane_id + 1 ≠ 0 then rec.lane_id + 1 else rec.lane_id + 2) =
              some l ∧
          l.waypoints.get? i = some w ∧
          rec.right_lane_waypoint_id = w.id)) := by
  obtain ⟨rk, lanes, hrk, lk, lane, hlk, i, hi, hb⟩ :=
    buildGraph_mem geo md g (wid, rec) hg hmem
  obtain ⟨hroad, hlane, _, _, hL, hR⟩ :=
    buildRecord_some geo lanes rk lk lane i wid rec hb
  subst hroad
  subst hlane
  refine ⟨lanes, lane, i, hrk, hlk, hi, ?_, ?_⟩
  · rw [neighborId] at hL
    rcases hlook : lookupLane lanes
        (if rec.lane_id - 1 ≠ 0 then rec.lane_id - 1 else rec.lane_id - 2)
      with _ | l <;> rw [hlook] at hL
    · exact Or.inl ⟨rfl, (Option.some.inj hL).symm⟩
    · have hL' : Option.map (fun w => w.id) (l.waypoints.get? i) =
          some rec.left_lane_waypoint_id := hL
      rcases hwg : l.waypoints.get? i with _ | w <;> rw [hwg] at hL'
      · exact Option.noConfusion hL'
      · exact Or.inr ⟨l, w, rfl, hwg, (Option.some.inj hL').symm⟩
  · rw [neighborId] at hR
    rcases hlook : lookupLane lanes
        (if rec.lane_id + 1 ≠ 0 then rec.lane_id + 1 else rec.lane_id + 2)
      with _ | l <;> rw [hlook] at hR
    · exact Or.inl ⟨rfl, (Option.some.inj hR).symm⟩
    · have hR' : Option.map (fun w => w.id) (l.waypoints.get? i) =
          some rec.right_lane_waypoint_id := hR
      rcases hwg : l.waypoints.get? i with _ | w <;> rw [hwg] at hR'
      · exact Option.noConfusion hR'
      · exact Or.inr ⟨l, w, rfl, hwg, (Option.some.inj hR').symm⟩

/-- Closed instance of `adjacent_lane_id_rule` on the concrete one-lane
map `mdS`. -/
theorem adjacent_lane_id_rule_witness :
    buildGraph geoId mdS = some graphS ∧ ((10 : Int), recS) ∈ graphS ∧
    (∃ lanes lane i,
      (recS.road_id, lanes) ∈ mdS ∧ (recS.lane_id, lane) ∈ lanes ∧
      i < lane.waypoints.length ∧
      ((lookupLane lanes
          (if recS.lane_id - 1 ≠ 0 then recS.lane_id - 1
           else recS.lane_id - 2) = none ∧
          recS.left_lane_waypoint_id = -1) ∨
        (∃ l w, lookupLane lanes
            (if recS.lane_id - 1 ≠ 0 then recS.lane_id - 1
             else recS.lane_id - 2) = some l ∧
          l.waypoints.get? i = some w ∧
          recS.left_lane_waypoint_id = w.id)) ∧
      ((lookupLane lanes
          (if recS.lane_id + 1 ≠ 0 then recS.lane_id + 1
           else recS.lane_id + 2) = none ∧
          recS.right_lane_waypoint_id = -1) ∨
        (∃ l w, lookupLane lanes
            (if recS.lane_id + 1 ≠ 0 then recS.lane_id + 1
             else recS.lane_id + 2) = some l ∧
          l.waypoints.get? i = some w ∧
          recS.right_lane_waypoint_id = w.id))) :=
  ⟨by decide, by decide,
    adjacent_lane_id_rule geoId mdS graphS 10 recS (by decide) (by decide)⟩

/-- The image of a member is a sublist of the flattened image. -/
theorem sublist_flatMap_of_mem {α β : Type} (f : α → List β) (l : List α)
    (a : α) (ha : a ∈ l) : (f a).Sublist (l.flatMap f) := by
  induction l with
  | nil => cases ha
  | cons b rest ih =>
    rcases List.mem_cons.1 ha with rfl | hm
    · exact List.sublist_append_left _ _
    · exact (ih hm).trans (List.sublist_append_right _ _)

/-- A lane's waypoint list is a sublist of all the map's waypoints. -/
theorem waypoints_sublist (md : MapDict) (rk lk : Int)
    (lanes : List (Int × Lane)) (lane : Lane)
    (hrk : (rk, lanes) ∈ md) (hlk : (lk, lane) ∈ lanes) :
    lane.waypoints.Sublist (allWaypoints md) := by
  have h1 : (lanes.flatMap (fun p => p.2.waypoints)).Sublist
      (allWaypoints md) :=
    sublist_flatMap_of_mem (fun rl => rl.2.flatMap (fun p => p.2.waypoints))
      md (rk, lanes) hrk
  have h2 : lane.waypoints.Sublist (lanes.flatMap (fun p => p.2.waypoints)) :=
    sublist_flatMap_of_mem (fun p => p.2.waypoints) lanes (lk, lane) hlk
  exact h2.trans h1

/-- C5: when waypoint ids are globally distinct, the successor list of a
record at position `i` is exactly the ids of the waypoints strictly
after `i` in its own lane, in lane order; every id it references belongs
to the strict tail of that lane (so to no other lane), and never to a
position at or before `i`. -/
theorem next_ids_own_lane_after (geo : Location → GeoLocation) (md : MapDict)
    (g : List (Int × WaypointRecord)) (wid : Int) (rec : WaypointRecord)
    (hids : ((allWaypoints md).map (fun w => w.id)).Nodup)
    (hg : buildGraph geo md = some g) (hmem : (wid, rec) ∈ g) :
    ∃ lanes lane i, (rec.road_id, lanes) ∈ md ∧ (rec.lane_id, lane) ∈ lanes ∧
      i < lane.waypoints.length ∧
      (∃ w, lane.waypoints.get? i = some w ∧ wid = w.id) ∧
      rec.next_waypoints_ids =
        (lane.waypoints.drop (i + 1)).map (fun w => w.id) ∧
      ∀ x ∈ rec.next_waypoints_ids,
        (∀ w', w' ∈ allWaypoints md → w'.id = x →
          w' ∈ lane.waypoints.drop (i + 1)) ∧
        (∀ j, j ≤ i → ∀ w'', lane.waypoints.get? j = some w'' →
          w''.id ≠ x) := by
  obtain ⟨rk, lanes, hrk, lk, lane, hlk, i, hi, hb⟩ :=
    buildGraph_mem geo md g (wid, rec) hg hmem
  obtain ⟨hroad, hlane, hwid, hnext, _, _⟩ :=
    buildRecord_some geo lanes rk lk lane i wid rec hb
  subst hroad
  subst hlane
  refine ⟨lanes, lane, i, hrk, hlk, hi, hwid, hnext, ?_⟩
  intro x hx
  rw [hnext] at hx
  obtain ⟨w0, hw0mem, hw0id⟩ := List.mem_map.1 hx
  have hsub : lane.waypoints.Sublist (allWaypoints md) :=
    waypoints_sublist md rec.road_id rec.lane_id lanes lane hrk hlk
  have hw0lane : w0 ∈ lane.waypoints := List.drop_subset _ _ hw0mem
  have hw0all : w0 ∈ allWaypoints md := hsub.subset hw0lane
  have hinj := List.inj_on_of_nodup_map hids
  constructor
  · intro w' hw' hid
    have heq : w' = w0 := hinj hw' hw0all (by rw [hid, hw0id])
    rw [heq]
    exact hw0mem
  · intro j hj w'' hget hcontra
    have hw''lane : w'' ∈ lane.waypoints := List.get?_mem hget
    have hw''all : w'' ∈ allWaypoints md := hsub.subset hw''lane
    have heq : w'' = w0 := hinj hw''all hw0all (by rw [hcontra, hw0id])
    subst heq
    obtain ⟨k, hk⟩ := List.get?_of_mem hw0mem
    rw [List.get?_drop] at hk
    have hnd2 : (lane.waypoints.map (fun w => w.id)).Nodup :=
      List.Nodup.sublist (hsub.map (fun w => w.id)) hids
    have hnd : lane.waypoints.Nodup := hnd2.of_map
    have hjlen : j < lane.waypoints.length := (List.get?_eq_some.1 hget).1
    have hjk : j = i + 1 + k := List.get?_inj hjlen hnd (by rw [hget, hk])
    omega

/-- Closed instance of `next_ids_own_lane_after` on the concrete
one-lane map `mdS`. -/
theorem next_ids_own_lane_after_witness :
    ((allWaypoints mdS).map (fun w => w.id)).Nodup ∧
    buildGraph geoId mdS = some graphS ∧ ((10 : Int), recS) ∈ graphS ∧
    (∃ lanes lane i,
      (recS.road_id, lanes) ∈ mdS ∧ (recS.lane_id, lane) ∈ lanes ∧
      i < lane.waypoints.length ∧
      (∃ w, lane.waypoints.get? i = some w ∧ (10 : Int) = w.id) ∧
      recS.next_waypoints_ids =
        (lane.waypoints.drop (i + 1)).map (fun w => w.id) ∧
      ∀ x ∈ recS.next_waypoints_ids,
        (∀ w', w' ∈ allWaypoints mdS → w'.id = x →
          w' ∈ lane.waypoints.drop (i + 1)) ∧
        (∀ j, j ≤ i → ∀ w'', lane.waypoints.get? j = some w'' →
          w''.id ≠ x)) :=
  ⟨by decide, by decide, by decide,
    next_ids_own_lane_after geoId mdS graphS 10 recS (by decide) (by decide)
      (by decide)⟩

/-- `vehicles` projection of the split over a cons cell. -/
theorem split_cons_vehicles (b : Actor) (rest : List Actor) :
    (split_actors (b :: rest)).vehicles =
      if category b = some 0 then b :: (split_actors rest).vehicles
      else (split_actors rest).vehicles := by
  rw [split_actors, category]
  split_ifs <;> first | rfl | simp_all

/-- `traffic_lights` projection of the split over a cons cell. -/
theorem split_cons_traffic_lights (b : Actor) (rest : List Actor) :
    (split_actors (b :: rest)).traffic_lights =
      if category b = some 1 then b :: (split_actors rest).traffic_lights
      else (split_actors rest).traffic_lights := by
  rw [split_actors, category]
  split_ifs <;> first | rfl | simp_all

/-- `speed_limits` projection of the split over a cons cell. -/
theorem split_cons_speed_limits (b : Actor) (rest : List Actor) :
    (split_actors (b :: rest)).speed_limits =
      if category b = some 2 then b :: (split_actors rest).speed_limits
      else (split_actors rest).speed_limits := by
  rw [split_actors, category]
  split_ifs <;> first | rfl | simp_all

/-- `walkers` projection of the split over a cons cell. -/
theorem split_cons_walkers (b : Actor) (rest : List Actor) :
    (split_actors (b :: rest)).walkers =
      if category b = some 3 then b :: (split_actors rest).walkers
      else (split_actors rest).walkers := by
  rw [split_actors, category]
  split_ifs <;> first | rfl | simp_all

/-- `stops` projection of the split over a cons cell. -/
theorem split_cons_stops (b : Actor) (rest : List Actor) :
    (split_actors (b :: rest)).stops =
      if category b = some 4 then b :: (split_actors rest).stops
      else (split_actors rest).stops := by
  rw [split_actors, category]
  split_ifs <;> first | rfl | simp_all

/-- Membership in the vehicles output characterised by `category`. -/
theorem mem_vehicles_iff (actors : List Actor) (a : Actor) :
    a ∈ (split_actors actors).vehicles ↔
      a ∈ actors ∧ category a = some 0 := by
  induction actors with
  | nil => simp [split_actors]
  | cons b rest ih =>
    rw [split_cons_vehicles]
    by_cases hb : category b = some 0
    · rw [if_pos hb, List.mem_cons, List.mem_cons, ih]
      constructor
      · rintro (rfl | ⟨hm, hc⟩)
        · exact ⟨Or.inl rfl, hb⟩
        · exact ⟨Or.inr hm, hc⟩
      · rintro ⟨rfl | hm, hc⟩
        · exact Or.inl rfl
        · exact Or.inr ⟨hm, hc⟩
    · rw [if_neg hb, ih, List.mem_cons]
      constructor
      · rintro ⟨hm, hc⟩
        exact ⟨Or.inr hm, hc⟩
      · rintro ⟨rfl | hm, hc⟩
        · exact absurd hc hb
        · exact ⟨hm, hc⟩

/-- Membership in the traffic-lights output characterised by `category`. -/
theorem mem_traffic_lights_iff (actors : List Actor) (a : Actor) :
    a ∈ (split_actors actors).traffic_lights ↔
      a ∈ actors ∧ category a = some 1 := by
  induction actors with
  | nil => simp [split_actors]
  | cons b rest ih =>
    rw [split_cons_traffic_lights]
    by_cases hb : category b = some 1
    · rw [if_pos hb, List.mem_cons, List.mem_cons, ih]
      constructor
      · rintro (rfl | ⟨hm, hc⟩)
        · exact ⟨Or.inl rfl, hb⟩
        · exact ⟨Or.inr hm, hc⟩
      · rintro ⟨rfl | hm, hc⟩
        · exact Or.inl rfl
        · exact Or.inr ⟨hm, hc⟩
    · rw [if_neg hb, ih, List.mem_cons]
      constructor
      · rintro ⟨hm, hc⟩
        exact ⟨Or.inr hm, hc⟩
      · rintro ⟨rfl | hm, hc⟩
        · exact absurd hc hb
        · exact ⟨hm, hc⟩

/-- Membership in the speed-limits output characterised by `category`. -/
theorem mem_speed_limits_iff (actors : List Actor) (a : Actor) :
    a ∈ (split_actors actors).speed_limits ↔
      a ∈ actors ∧ category a = some 2 := by
  induction actors with
  | nil => simp [split_actors]
  | cons b rest ih =>
    rw [split_cons_speed_limits]
    by_cases hb : category b = some 2
    · rw [if_pos hb, List.mem_cons, List.mem_cons, ih]
      constructor
      · rintro (rfl | ⟨hm, hc⟩)
        · exact ⟨Or.inl rfl, hb⟩
        · exact ⟨Or.inr hm, hc⟩
      · rintro ⟨rfl | hm, hc⟩
        · exact Or.inl rfl
        · exact Or.inr ⟨hm, hc⟩
    · rw [if_neg hb, ih, List.mem_cons]
      constructor
      · rintro ⟨hm, hc⟩
        exact ⟨Or.inr hm, hc⟩
      · rintro ⟨rfl | hm, hc⟩
        · exact absurd hc hb
        · exact ⟨hm, hc⟩

/-- Membership in the walkers output characterised by `category`. -/
theorem mem_walkers_iff (actors : List Actor) (a : Actor) :
    a ∈ (split_actors actors).walkers ↔
      a ∈ actors ∧ category a = some 3 := by
  induction actors with
  | nil => simp [split_actors]
  | cons b rest ih =>
    rw [split_cons_walkers]
    by_cases hb : category b = some 3
    · rw [if_pos hb, List.mem_cons, List.mem_cons, ih]
      constructor
      · rintro (rfl | ⟨hm, hc⟩)
        · exact ⟨Or.inl rfl, hb⟩
        · exact ⟨Or.inr hm, hc⟩
      · rintro ⟨rfl | hm, hc⟩
        · exact Or.inl rfl
        · exact Or.inr ⟨hm, hc⟩
    · rw [if_neg hb, ih, List.mem_cons]
      constructor
      · rintro ⟨hm, hc⟩
        exact ⟨Or.inr hm, hc⟩
      · rintro ⟨rfl | hm, hc⟩
        · exact absurd hc hb
        · exact ⟨hm, hc⟩

/-- Membership in the stops output characterised by `category`. -/
theorem mem_stops_iff (actors : List Actor) (a : Actor) :
    a ∈ (split_actors actors).stops ↔
      a ∈ actors ∧ category a = some 4 := by
  induction actors with
  | nil => simp [split_actors]
  | cons b rest ih =>
    rw [split_cons_stops]
    by_cases hb : category b = some 4
    · rw [if_pos hb, List.mem_cons, List.mem_cons, ih]
      constructor
      · rintro (rfl | ⟨hm, hc⟩)
        · exact ⟨Or.inl rfl, hb⟩
        · exact ⟨Or.inr hm, hc⟩
      · rintro ⟨rfl | hm, hc⟩
        · exact Or.inl rfl
        · exact Or.inr ⟨hm, hc⟩
    · rw [if_neg hb, ih, List.mem_cons]
      constructor
      · rintro ⟨hm, hc⟩
        exact ⟨Or.inr hm, hc⟩
      · rintro ⟨rfl | hm, hc⟩
        · exact absurd hc hb
        · exact ⟨hm, hc⟩

/-- C3: the `_split_actors` partition is exhaustive within the five
known type substrings and exclusive: an actor of the input that matches
at least one substring appears in exactly one of the five output lists,
and an actor matching none appears in none. -/
theorem split_actors_exhaustive_exclusive (actors : List Actor) (a : Actor)
    (ha : a ∈ actors) :
    (matchesAny a = true → inCount a (split_actors actors) = 1) ∧
    (matchesAny a = false → inCount a (split_actors actors) = 0) := by
  by_cases c1 : containsSub "vehicle" a.type_id = true <;>
    by_cases c2 : containsSub "traffic_light" a.type_id = true <;>
    by_cases c3 : containsSub "speed_limit" a.type_id = true <;>
    by_cases c4 : containsSub "walker" a.type_id = true <;>
    by_cases c5 : containsSub "stop" a.type_id = true <;>
    simp_all [inCount, mem_vehicles_iff, mem_traffic_lights_iff,
      mem_speed_limits_iff, mem_walkers_iff, mem_stops_iff, matchesAny,
      category]

/-- Closed instance of `split_actors_exhaustive_exclusive` on a concrete
actor list with one matching and one unmatched actor. -/
theorem split_actors_exhaustive_exclusive_witness :
    mkActor 1 "vehicle.audi.tt" [] ∈
      [mkActor 1 "vehicle.audi.tt" [], mkActor 2 "sensor.camera" []] ∧
    (matchesAny (mkActor 1 "vehicle.audi.tt" []) = true →
      inCount (mkActor 1 "vehicle.audi.tt" [])
        (split_actors
          [mkActor 1 "vehicle.audi.tt" [], mkActor 2 "sensor.camera" []]) =
        1) ∧
    (matchesAny (mkActor 1 "vehicle.audi.tt" []) = false →
      inCount (mkActor 1 "vehicle.audi.tt" [])
        (split_actors
          [mkActor 1 "vehicle.audi.tt" [], mkActor 2 "sensor.camera" []]) =
        0) := by
  refine ⟨by decide, ?_⟩
  exact split_actors_exhaustive_exclusive
    [mkActor 1 "vehicle.audi.tt" [], mkActor 2 "sensor.camera" []]
    (mkActor 1 "vehicle.audi.tt" []) (by decide)

/-- An actor is routed to the vehicles category exactly when its type
name contains the vehicle substring. -/
theorem category_zero (a : Actor) :
    category a = some 0 ↔ containsSub "vehicle" a.type_id = true := by
  rw [category]
  split_ifs <;> simp_all

/-- On an actor of the vehicles category, the hero filter test performs
the `role_name` attribute lookup. -/
theorem heroTest_of_vehicle (a : Actor)
    (hv : containsSub "vehicle" a.type_id = true) :
    heroTest a = (lookupAttr a.attributes "role_name").map
      (fun s => decide (s = "hero")) := by
  rw [heroTest, if_pos hv]
  rcases lookupAttr a.attributes "role_name" with _ | s <;> rfl

/-- Membership in a successful hero-vehicles filter run. -/
theorem mem_heroVehicles_iff (vs : List Actor) (heroes : List Actor)
    (h : heroVehicles vs = some heroes) (a : Actor) :
    a ∈ heroes ↔ a ∈ vs ∧ heroTest a = some true := by
  induction vs generalizing heroes with
  | nil =>
    rw [heroVehicles, Option.some_inj] at h
    subst h
    simp
  | cons b rest ih =>
    rw [heroVehicles] at h
    rcases hb : heroTest b with _ | bb <;> rw [hb] at h
    · exact Option.noConfusion h
    rcases hr : heroVehicles rest with _ | r <;> rw [hr] at h
    · exact Option.noConfusion h
    rw [Option.some_inj] at h
    subst h
    rcases bb with _ | _
    · simp only [Bool.false_eq_true, if_false, List.mem_cons]
      rw [ih r hr]
      constructor
      · rintro ⟨hm, ht⟩
        exact ⟨Or.inr hm, ht⟩
      · rintro ⟨rfl | hm, ht⟩
        · rw [hb] at ht
          exact Bool.noConfusion (Option.some.inj ht)
        · exact ⟨hm, ht⟩
    · simp only [if_true, List.mem_cons]
      rw [ih r hr]
      constructor
      · rintro (rfl | ⟨hm, ht⟩)
        · exact ⟨Or.inl rfl, hb⟩
        · exact ⟨Or.inr hm, ht⟩
      · rintro ⟨rfl | hm, ht⟩
        · exact Or.inl rfl
        · exact Or.inr ⟨hm, ht⟩

/-- A member on which the hero filter test raises makes the whole
filter run raise. -/
theorem heroVehicles_none (vs : List Actor) (a : Actor) (ha : a ∈ vs)
    (hnone : heroTest a = none) : heroVehicles vs = none := by
  induction vs with
  | nil => cases ha
  | cons b rest ih =>
    rw [heroVehicles]
    rcases List.mem_cons.1 ha with rfl | hm
    · rw [hnone]
    · rcases hb : heroTest b with _ | bb
      · rfl
      · rw [ih hm]

/-- C4: in `get_dynamic_objects`, hero selection returns none exactly on
an empty hero set; on a nonempty hero set it returns the record of a
member of the hero set (the vehicles whose `role_name` attribute equals
the hero tag), and when the hero set has no duplicates each member is
picked by exactly one of the equally likely random indices. -/
theorem hero_selection (applyT : Transform → Location → Location)
    (geo : Location → GeoLocation) (getWp : Location → Waypoint)
    (actors : List Actor) (k : Nat) (out : DynamicObjects)
    (hout : get_dynamic_objects applyT geo getWp actors k = some out) :
    ∃ heroes, heroVehicles (split_actors actors).vehicles = some heroes ∧
      (∀ a, a ∈ heroes ↔
        a ∈ (split_actors actors).vehicles ∧ heroTest a = some true) ∧
      (heroes = [] → out.hero_vehicle = none) ∧
      (heroes ≠ [] → ∃ a, a ∈ heroes ∧
        out.hero_vehicle = get_hero_vehicle geo getWp (some a)) ∧
      (heroes.Nodup → ∀ i (hi : i < heroes.length),
        ((Finset.range heroes.length).filter
          (fun k2 => chooseHero heroes k2 =
            some (heroes.get ⟨i, hi⟩))).card = 1) := by
  rw [get_dynamic_objects] at hout
  rcases hh : heroVehicles (split_actors actors).vehicles with _ | heroes <;>
    rw [hh] at hout
  · exact Option.noConfusion hout
  rcases hsl : get_speed_limits geo (split_actors actors).speed_limits with
    _ | sl <;> rw [hsl] at hout
  · exact Option.noConfusion hout
  have hout' := Option.some.inj hout
  subst hout'
  refine ⟨heroes, rfl, fun a => mem_heroVehicles_iff _ _ hh a, ?_, ?_, ?_⟩
  · rintro rfl
    rfl
  · intro hne
    have hn0 : heroes.length ≠ 0 := by
      intro h0
      exact hne (List.length_eq_zero.1 h0)
    have hlt : k % heroes.length < heroes.length :=
      Nat.mod_lt _ (Nat.pos_of_ne_zero hn0)
    refine ⟨heroes.get ⟨k % heroes.length, hlt⟩, List.get_mem _ _ _, ?_⟩
    show get_hero_vehicle geo getWp (chooseHero heroes k) = _
    rw [chooseHero, if_neg hn0, List.get?_eq_get hlt]
  · intro hnd i hi
    have hn0 : heroes.length ≠ 0 := by omega
    have hfe : (Finset.range heroes.length).filter
        (fun k2 => chooseHero heroes k2 = some (heroes.get ⟨i, hi⟩)) =
          {i} := by
      ext m
      simp only [Finset.mem_filter, Finset.mem_range, Finset.mem_singleton]
      constructor
      · rintro ⟨hm, hsel⟩
        rw [chooseHero, if_neg hn0, Nat.mod_eq_of_lt hm,
          List.get?_eq_get hm] at hsel
        have heq := Option.some.inj hsel
        have hinj := List.nodup_iff_injective_get.1 hnd heq
        exact congrArg Fin.val hinj
      · rintro rfl
        refine ⟨hi, ?_⟩
        rw [chooseHero, if_neg hn0, Nat.mod_eq_of_lt hi,
          List.get?_eq_get hi]
    rw [hfe, Finset.card_singleton]

/-- Closed instance of `hero_selection` on the concrete actor list
`actors0` (one tagged hero vehicle, one traffic light). -/
theorem hero_selection_witness :
    get_dynamic_objects applyTId geoId getWp0 actors0 0 = some dynOut ∧
    (∃ heroes, heroVehicles (split_actors actors0).vehicles = some heroes ∧
      (∀ a, a ∈ heroes ↔
        a ∈ (split_actors actors0).vehicles ∧ heroTest a = some true) ∧
      (heroes = [] → dynOut.hero_vehicle = none) ∧
      (heroes ≠ [] → ∃ a, a ∈ heroes ∧
        dynOut.hero_vehicle = get_hero_vehicle geoId getWp0 (some a)) ∧
      (heroes.Nodup → ∀ i (hi : i < heroes.length),
        ((Finset.range heroes.length).filter
          (fun k2 => chooseHero heroes k2 =
            some (heroes.get ⟨i, hi⟩))).card = 1)) :=
  ⟨rfl, hero_selection applyTId geoId getWp0 actors0 0 dynOut rfl⟩

/-- C10: the hero filter looks up `role_name` on every actor of the
vehicles category, and an input whose vehicles category contains an
actor without that attribute makes `get_dynamic_objects` raise a
key-lookup error (modelled as `none`) instead of returning a result. -/
theorem missing_role_name_raises (applyT : Transform → Location → Location)
    (geo : Location → GeoLocation) (getWp : Location → Waypoint)
    (actors : List Actor) (k : Nat)
    (hmiss : ∃ v, v ∈ (split_actors actors).vehicles ∧
      lookupAttr v.attributes "role_name" = none) :
    (∀ v ∈ (split_actors actors).vehicles,
      heroTest v = (lookupAttr v.attributes "role_name").map
        (fun s => decide (s = "hero"))) ∧
    get_dynamic_objects applyT geo getWp actors k = none := by
  have hall : ∀ v ∈ (split_actors actors).vehicles,
      containsSub "vehicle" v.type_id = true := by
    intro v hv
    exact (category_zero v).1 ((mem_vehicles_iff actors v).1 hv).2
  constructor
  · intro v hv
    exact heroTest_of_vehicle v (hall v hv)
  · obtain ⟨v, hv, hnone⟩ := hmiss
    have htv : heroTest v = none := by
      rw [heroTest_of_vehicle v (hall v hv), hnone]
      rfl
    have hfail : heroVehicles (split_actors actors).vehicles = none :=
      heroVehicles_none _ v hv htv
    rw [get_dynamic_objects, hfail]

/-- Closed instance of `missing_role_name_raises` on the concrete list
`actorsBad` whose only vehicle has no attributes. -/
theorem missing_role_name_raises_witness :
    (∃ v, v ∈ (split_actors actorsBad).vehicles ∧
      lookupAttr v.attributes "role_name" = none) ∧
    (∀ v ∈ (split_actors actorsBad).vehicles,
      heroTest v = (lookupAttr v.attributes "role_name").map
        (fun s => decide (s = "hero"))) ∧
    get_dynamic_objects applyTId geoId getWp0 actorsBad 0 = none :=
  ⟨⟨vehNoRole, by decide, by decide⟩,
    missing_role_name_raises applyTId geoId getWp0 actorsBad 0
      ⟨vehNoRole, by decide, by decide⟩⟩

/-- Every entry of a successful `get_speed_limits` run carries the
latitude-first position of one of the input actors. -/
theorem get_speed_limits_mem (geo : Location → GeoLocation)
    (sls : List Actor) (out : List (Int × SpeedLimitRecord))
    (h : get_speed_limits geo sls = some out) (p : Int × SpeedLimitRecord)
    (hp : p ∈ out) :
    ∃ a, a ∈ sls ∧ p.2.position = posCoords (geo a.transform.loc) := by
  induction sls generalizing out with
  | nil =>
    rw [get_speed_limits, Option.some_inj] at h
    subst h
    cases hp
  | cons b rest ih =>
    rw [get_speed_limits] at h
    rcases hsp : parseSpeed b.type_id with _ | sp <;> rw [hsp] at h
    · exact Option.noConfusion h
    rcases hr : get_speed_limits geo rest with _ | r <;> rw [hr] at h
    · exact Option.noConfusion h
    rw [Option.some_inj] at h
    subst h
    rcases List.mem_cons.1 hp with rfl | hmem
    · exact ⟨b, List.mem_cons_self _ _, rfl⟩
    · obtain ⟨a, ha, hpos⟩ := ih r hr hmem
      exact ⟨a, List.mem_cons_of_mem _ ha, hpos⟩

/-- C8: in every record of a `get_dynamic_objects` result — vehicle,
walker, traffic light, stop sign, speed limit, and the hero record — the
`position` field is the latitude-first coordinate list of the actor's
projected location, while every polygon vertex (`bounding_box` of
vehicles and walkers, `trigger_volume` of traffic lights and stop signs)
uses the longitude-first coordinate list; the two orderings are
different orderings. -/
theorem position_latitude_first_polygon_longitude_first
    (applyT : Transform → Location → Location) (geo : Location → GeoLocation)
    (getWp : Location → Waypoint) (actors : List Actor) (k : Nat)
    (out : DynamicObjects)
    (hout : get_dynamic_objects applyT geo getWp actors k = some out) :
    (∀ p ∈ out.vehicles, ∃ a, a ∈ (split_actors actors).vehicles ∧
      p.2.position = posCoords (geo a.transform.loc) ∧
      p.2.bounding_box = (get_bounding_box applyT geo a).map polyCoords) ∧
    (∀ p ∈ out.walkers, ∃ a, a ∈ (split_actors actors).walkers ∧
      p.2.position = posCoords (geo a.transform.loc) ∧
      p.2.bounding_box = (get_bounding_box applyT geo a).map polyCoords) ∧
    (∀ p ∈ out.traffic_lights,
      ∃ a, a ∈ (split_actors actors).traffic_lights ∧
      p.2.position = posCoords (geo a.transform.loc) ∧
      p.2.trigger_volume = (get_trigger_volume applyT geo a).map polyCoords) ∧
    (∀ p ∈ out.stop_signs, ∃ a, a ∈ (split_actors actors).stops ∧
      p.2.position = posCoords (geo a.transform.loc) ∧
      p.2.trigger_volume = (get_trigger_volume applyT geo a).map polyCoords) ∧
    (∀ p ∈ out.speed_limits,
      ∃ a, a ∈ (split_actors actors).speed_limits ∧
      p.2.position = posCoords (geo a.transform.loc)) ∧
    (∀ hrec, out.hero_vehicle = some hrec →
      ∃ a : Actor, hrec.position = posCoords (geo a.transform.loc)) ∧
    (∃ g : GeoLocation, posCoords g ≠ polyCoords g) := by
  rw [get_dynamic_objects] at hout
  rcases hh : heroVehicles (split_actors actors).vehicles with _ | heroes <;>
    rw [hh] at hout
  · exact Option.noConfusion hout
  rcases hsl : get_speed_limits geo (split_actors actors).speed_limits with
    _ | sl <;> rw [hsl] at hout
  · exact Option.noConfusion hout
  have hout' := Option.some.inj hout
  subst hout'
  refine ⟨?_, ?_, ?_, ?_, ?_, ?_, ⟨⟨0, 1, 0⟩, by decide⟩⟩
  · intro p hp
    obtain ⟨a, ha, rfl⟩ := List.mem_map.1 hp
    exact ⟨a, ha, rfl, rfl⟩
  · intro p hp
    obtain ⟨a, ha, rfl⟩ := List.mem_map.1 hp
    exact ⟨a, ha, rfl, rfl⟩
  · intro p hp
    obtain ⟨a, ha, rfl⟩ := List.mem_map.1 hp
    exact ⟨a, ha, rfl, rfl⟩
  · intro p hp
    obtain ⟨a, ha, rfl⟩ := List.mem_map.1 hp
    exact ⟨a, ha, rfl, rfl⟩
  · intro p hp
    exact get_speed_limits_mem geo (split_actors actors).speed_limits sl
      hsl p hp
  · intro hrec hrec_eq
    have h2 : get_hero_vehicle geo getWp (chooseHero heroes k) =
        some hrec := hrec_eq
    rcases hch : chooseHero heroes k with _ | a <;> rw [hch] at h2
    · exact Option.noConfusion h2
    · have h3 := Option.some.inj h2
      subst h3
      exact ⟨a, rfl⟩

/-- Closed instance of
`position_latitude_first_polygon_longitude_first` on `actors0`. -/
theorem position_latitude_first_polygon_longitude_first_witness :
    get_dynamic_objects applyTId geoId getWp0 actors0 0 = some dynOut ∧
    ((∀ p ∈ dynOut.vehicles, ∃ a, a ∈ (split_actors actors0).vehicles ∧
        p.2.position = posCoords (geoId a.transform.loc) ∧
        p.2.bounding_box =
          (get_bounding_box applyTId geoId a).map polyCoords) ∧
      (∀ p ∈ dynOut.walkers, ∃ a, a ∈ (split_actors actors0).walkers ∧
        p.2.position = posCoords (geoId a.transform.loc) ∧
        p.2.bounding_box =
          (get_bounding_box applyTId geoId a).map polyCoords) ∧
      (∀ p ∈ dynOut.traffic_lights,
        ∃ a, a ∈ (split_actors actors0).traffic_lights ∧
        p.2.position = posCoords (geoId a.transform.loc) ∧
        p.2.trigger_volume =
          (get_trigger_volume applyTId geoId a).map polyCoords) ∧
      (∀ p ∈ dynOut.stop_signs, ∃ a, a ∈ (split_actors actors0).stops ∧
        p.2.position = posCoords (geoId a.transform.loc) ∧
        p.2.trigger_volume =
          (get_trigger_volume applyTId geoId a).map polyCoords) ∧
      (∀ p ∈ dynOut.speed_limits,
        ∃ a, a ∈ (split_actors actors0).speed_limits ∧
        p.2.position = posCoords (geoId a.transform.loc)) ∧
      (∀ hrec, dynOut.hero_vehicle = some hrec →
        ∃ a : Actor, hrec.position = posCoords (geoId a.transform.loc)) ∧
      (∃ g : GeoLocation, posCoords g ≠ polyCoords g)) :=
  ⟨rfl, position_latitude_first_polygon_longitude_first applyTId geoId getWp0
    actors0 0 dynOut rfl⟩

/-- Prefixing an iterate list: the iterates of `f` from `x` up to `m`
are `x` followed by the iterates from `f x` up to `m - 1`. -/
theorem range_map_iterate {α : Type} (f : α → α) (x : α) (m : Nat) :
    (List.range (m + 1)).map (fun j => f^[j] x) =
      x :: (List.range m).map (fun j => f^[j] (f x)) := by
  rw [List.range_succ_eq_map, List.map_cons, List.map_map]
  have hc : ((fun j => f^[j] x) ∘ Nat.succ) = fun j => f^[j] (f x) := by
    funext j
    exact Function.iterate_succ_apply f j x
  rw [hc]
  rfl

/-- The while loop of the lane walk, run with enough fuel: it returns
the iterates of the stepping function up to the first road change, which
occurs within the termination bound. -/
theorem walkLoop_run (next : Waypoint → ℚ → List Waypoint)
    (stepF : Waypoint → Waypoint)
    (hstep : ∀ v, (next v precision).head? = some (stepF v)) (road : Int) :
    ∀ n nxt, (stepF^[n] nxt).road_id ≠ road →
      ∀ fuel, n + 1 ≤ fuel →
        ∃ m, m ≤ n ∧
          walkLoop next road fuel nxt =
            some ((List.range m).map (fun j => stepF^[j] nxt)) ∧
          (∀ j, j < m → (stepF^[j] nxt).road_id = road) ∧
          (stepF^[m] nxt).road_id ≠ road := by
  intro n
  induction n with
  | zero =>
    intro nxt h fuel hf
    rcases fuel with _ | f
    · omega
    refine ⟨0, le_refl 0, ?_, ?_, h⟩
    · have h' : nxt.road_id ≠ road := h
      rw [walkLoop, if_neg h']
      rfl
    · intro j hj
      omega
  | succ n ih =>
    intro nxt h fuel hf
    rcases fuel with _ | f
    · omega
    by_cases hr : nxt.road_id = road
    · have hnx : (stepF^[n] (stepF nxt)).road_id ≠ road := by
        rw [← Function.iterate_succ_apply]
        exact h
      obtain ⟨m, hm, heq, hroad, hne⟩ := ih (stepF nxt) hnx f (by omega)
      have hstep' : walkLoop next road (f + 1) nxt =
          match walkLoop next road f (stepF nxt) with
          | none => none
          | some rest => some (nxt :: rest) := by
        rw [walkLoop, if_pos hr, hstep nxt]
      refine ⟨m + 1, by omega, ?_, ?_, ?_⟩
      · rw [hstep', heq, range_map_iterate]
      · intro j hj
        rcases j with _ | j'
        · exact hr
        · rw [Function.iterate_succ_apply]
          exact hroad j' (by omega)
      · rw [Function.iterate_succ_apply]
        exact hne
    · refine ⟨0, by omega, ?_, ?_, hr⟩
      · rw [walkLoop, if_neg hr]
        rfl
      · intro j hj
        omega

/-- C7: `get_scene_layout` sorts the topology start waypoints by
vertical position (the sorted list is ordered by `z` and is a
permutation of the starts), and for each start the forward walk at the
fixed `precision` step, which appends while the road id equals the start
road id, terminates under the precondition that taking the first next
waypoint always succeeds and eventually reaches a different road id:
with any sufficient fuel it returns one fixed finite ordered list,
namely the step iterates of the start, all on the start's road. -/
theorem topology_walk_terminates (topo : List (Waypoint × Waypoint))
    (next : Waypoint → ℚ → List Waypoint) (stepF : Waypoint → Waypoint)
    (w : Waypoint) (n : Nat)
    (hstep : ∀ v, (next v precision).head? = some (stepF v))
    (hterm : (stepF^[n + 1] w).road_id ≠ w.road_id) :
    List.Pairwise (fun a b => a.loc.z ≤ b.loc.z) (sortTopology topo) ∧
    (sortTopology topo).Perm (topo.map Prod.fst) ∧
    ∃ m, m ≤ n + 1 ∧ ∀ fuel, n + 1 ≤ fuel →
      buildLaneWaypoints next w fuel =
        some ((List.range (m + 1)).map (fun j => stepF^[j] w)) ∧
      ∀ v ∈ (List.range (m + 1)).map (fun j => stepF^[j] w),
        v.road_id = w.road_id := by
  refine ⟨?_, ?_, ?_⟩
  · have hp : List.Pairwise
        (fun a b => (decide (a.loc.z ≤ b.loc.z)) = true)
        ((topo.map Prod.fst).mergeSort
          (fun a b => decide (a.loc.z ≤ b.loc.z))) :=
      List.sorted_mergeSort
        (fun a b c h1 h2 => by
          simp only [decide_eq_true_eq] at h1 h2 ⊢
          exact le_trans h1 h2)
        (fun a b => by
          simp only [Bool.or_eq_true, decide_eq_true_eq]
          exact le_total _ _)
        (topo.map Prod.fst)
    rw [sortTopology]
    exact hp.imp (fun h => by simpa using h)
  · rw [sortTopology]
    exact List.mergeSort_perm _ _
  · have hnx : (stepF^[n] (stepF w)).road_id ≠ w.road_id := by
      rw [← Function.iterate_succ_apply]
      exact hterm
    obtain ⟨m, hm, heq1, hroad1, hne1⟩ :=
      walkLoop_run next stepF hstep w.road_id n (stepF w) hnx (n + 1)
        (by omega)
    refine ⟨m, by omega, ?_⟩
    intro fuel hf
    obtain ⟨m', hm', heq2, hroad2, hne2⟩ :=
      walkLoop_run next stepF hstep w.road_id n (stepF w) hnx fuel (by omega)
    have hmm : m' = m := by
      rcases Nat.lt_trichotomy m' m with hlt | he | hgt
      · exact absurd (hroad1 m' hlt) hne2
      · exact he
      · exact absurd (hroad2 m hgt) hne1
    rw [hmm] at heq2
    have hroad2' : ∀ j, j < m → (stepF^[j] (stepF w)).road_id = w.road_id :=
      fun j hj => hroad2 j (by omega)
    constructor
    · have hb : buildLaneWaypoints next w fuel =
          match walkLoop next w.road_id fuel (stepF w) with
          | none => none
          | some rest => some (w :: rest) := by
        rw [buildLaneWaypoints, hstep w]
      rw [hb, heq2, range_map_iterate]
    · intro v hv
      obtain ⟨j, hjmem, rfl⟩ := List.mem_map.1 hv
      have hj : j < m + 1 := List.mem_range.1 hjmem
      rcases j with _ | j'
      · rfl
      · rw [Function.iterate_succ_apply]
        exact hroad2' j' (by omega)

/-- Closed instance of `topology_walk_terminates` on a one-edge topology
and a constant stepping function that leaves the road in one step. -/
theorem topology_walk_terminates_witness :
    (∀ v, (nextW v precision).head? = some (stepG v)) ∧
    (stepG^[0 + 1] (mkWp 10 1 1)).road_id ≠ (mkWp 10 1 1).road_id ∧
    (List.Pairwise (fun a b => a.loc.z ≤ b.loc.z) (sortTopology topoW) ∧
      (sortTopology topoW).Perm (topoW.map Prod.fst) ∧
      ∃ m, m ≤ 0 + 1 ∧ ∀ fuel, 0 + 1 ≤ fuel →
        buildLaneWaypoints nextW (mkWp 10 1 1) fuel =
          some ((List.range (m + 1)).map (fun j => stepG^[j] (mkWp 10 1 1))) ∧
        ∀ v ∈ (List.range (m + 1)).map (fun j => stepG^[j] (mkWp 10 1 1)),
          v.road_id = (mkWp 10 1 1).road_id) :=
  ⟨fun _ => rfl, by decide,
    topology_walk_terminates topoW nextW stepG (mkWp 10 1 1) 0
      (fun _ => rfl) (by decide)⟩

end SceneLayout
